import Mathlib

/-!
Shallow embedding of the libocxl AFU context / MMIO / IRQ management layer
(src/afu.c, src/mmio.c, src/irq.c, src/internal.c), together with proofs of
the specification's claims about it.

Machine integers are modelled as `Nat`/`Int` with explicit reductions modulo
`2^64` where the C code performs `size_t`/`off_t` arithmetic.  Process memory
backing an mmap'd MMIO region is modelled as a byte store `Int → Nat`
(each byte `< 256`), carried inside the region record, so that the 32/64-bit
native loads and stores of `mmio.c` become byte-level operations exactly as
the hardware sees them.  Host endianness is a parameter (`hostBE`), since the
library compiles for both big- and little-endian hosts.
-/

set_option autoImplicit false

namespace LibOCXL

/-- The `ocxl_err` enumeration from include/libocxl.h. -/
inductive ocxl_err where
  | OCXL_OK
  | OCXL_NO_MEM
  | OCXL_NO_DEV
  | OCXL_NO_CONTEXT
  | OCXL_NO_IRQ
  | OCXL_INTERNAL_ERROR
  | OCXL_ALREADY_DONE
  | OCXL_OUT_OF_BOUNDS
  | OCXL_NO_MORE_CONTEXTS
  | OCXL_INVALID_ARGS
  deriving DecidableEq, Repr

open ocxl_err

/-- The `ocxl_endian` enumeration from include/libocxl.h. -/
inductive ocxl_endian where
  | OCXL_MMIO_BIG_ENDIAN
  | OCXL_MMIO_LITTLE_ENDIAN
  | OCXL_MMIO_HOST_ENDIAN
  deriving DecidableEq, Repr

open ocxl_endian

/-- The `ocxl_mmio_type` enumeration from include/libocxl.h. -/
inductive ocxl_mmio_type where
  | OCXL_GLOBAL_MMIO
  | OCXL_PER_PASID_MMIO
  deriving DecidableEq, Repr

open ocxl_mmio_type

/-! ### size_t / off_t arithmetic -/

/-- The `2^64`, the modulus of `size_t` arithmetic. -/
def two64 : Nat := 18446744073709551616

/-- The `2^63`, the first value that is negative when a `size_t` is cast to `off_t`. -/
def two63 : Nat := 9223372036854775808

/-- The `a - b` computed in `size_t` (wrapping) arithmetic, for `b ≤ 2^64`. -/
def sub64 (a b : Nat) : Nat := (a % two64 + (two64 - b)) % two64

/-- Reinterpret a `size_t` bit pattern as an `off_t` (two's complement). -/
def toSigned64 (n : Nat) : Int := if n < two63 then (n : Int) else (n : Int) - (two64 : Int)

/-! ### Byte-level memory

`mmio.c` performs volatile native-width loads/stores through the mapped
pointer: `*(volatile uint32_t *)(region->start + offset)`.  We model the
mapping's contents as a byte store and the native access as reading/writing
`w` consecutive bytes in host order. -/

/-- Split a value into `w` bytes, least significant first. -/
def natToBytesLE : Nat → Nat → List Nat
  | 0, _ => []
  | w + 1, v => v % 256 :: natToBytesLE w (v / 256)

/-- Reassemble a little-endian byte list into a value. -/
def bytesToNatLE : List Nat → Nat
  | [] => 0
  | b :: bs => b + 256 * bytesToNatLE bs

/-- A byte store: the contents of one mmap'd region, indexed from its base. -/
def Mem : Type := Int → Nat

/-- Write one byte. -/
def storeByte (m : Mem) (a : Int) (b : Nat) : Mem := fun x => if x = a then b else m x

/-- Write a list of bytes at consecutive addresses. -/
def storeBytes (m : Mem) : Int → List Nat → Mem
  | _, [] => m
  | a, b :: bs => storeBytes (storeByte m a b) (a + 1) bs

/-- Read `w` bytes at consecutive addresses. -/
def loadBytes (m : Mem) : Int → Nat → List Nat
  | _, 0 => []
  | a, w + 1 => m a :: loadBytes m (a + 1) w

/-- The bytes of a `w`-byte word in host order: big-endian hosts store the
most significant byte at the lowest address. -/
def hostBytes (hostBE : Bool) (w v : Nat) : List Nat :=
  if hostBE then (natToBytesLE w v).reverse else natToBytesLE w v

/-- Reassemble `w` host-ordered bytes into a word value. -/
def hostWord (hostBE : Bool) (l : List Nat) : Nat :=
  if hostBE then bytesToNatLE l.reverse else bytesToNatLE l

/-- Byte-swap a `w`-byte word (the glibc `bswap_32`/`bswap_64` primitive
underlying `htobe*`/`htole*`/`be*toh`/`le*toh` on the opposite-endian host). -/
def bswap (w v : Nat) : Nat := bytesToNatLE (natToBytesLE w v).reverse

/-- The `htobe32`/`be32toh` (and the 64-bit variants, via `w`): identity on a
big-endian host, byte swap on a little-endian host. -/
def htobe (hostBE : Bool) (w v : Nat) : Nat := if hostBE then v else bswap w v

/-- The `htole32`/`le32toh` (and the 64-bit variants, via `w`): identity on a
little-endian host, byte swap on a big-endian host. -/
def htole (hostBE : Bool) (w v : Nat) : Nat := if hostBE then bswap w v else v

/-! ### MMIO regions (struct ocxl_mmio_area) -/

/-- The `struct ocxl_mmio_area` from libocxl_internal.h.  The `start` pointer is
modelled as the mapping's contents (`none` once unmapped / NULL); `length`
is the `size_t` byte length.  The `afu` back-reference is only used for
diagnostics and is omitted. -/
structure ocxl_mmio_area where
  start : Option Mem
  length : Nat
  type : ocxl_mmio_type

/-- The `mmio_check` from mmio.c:437.  Validates an MMIO operation: a NULL
region handle or an unmapped region yields `OCXL_INVALID_ARGS`; then the
`off_t` comparison `offset >= (off_t)(region->length - (size - 1))`
(computed in wrapping `size_t` arithmetic, then cast) yields
`OCXL_OUT_OF_BOUNDS`. -/
def mmio_check (region : Option ocxl_mmio_area) (offset : Int) (size : Nat) : ocxl_err :=
  match region with
  | none => OCXL_INVALID_ARGS
  | some r =>
    match r.start with
    | none => OCXL_INVALID_ARGS
    | some _ =>
      if offset ≥ toSigned64 (sub64 r.length (size - 1)) then OCXL_OUT_OF_BOUNDS
      else OCXL_OK

/-- The `mmio_read32_native`/`mmio_read64_native` from mmio.c (width `w` bytes):
check, then a native-width load from `region->start + offset`.  Returns the
error code and the value read (`none` when `*out` was not written). -/
def mmio_read_native (hostBE : Bool) (w : Nat) (region : Option ocxl_mmio_area)
    (offset : Int) : ocxl_err × Option Nat :=
  match mmio_check region offset w with
  | OCXL_OK =>
    match region with
    | some r =>
      match r.start with
      | some m => (OCXL_OK, some (hostWord hostBE (loadBytes m offset w)))
      | none => (OCXL_INVALID_ARGS, none)
    | none => (OCXL_INVALID_ARGS, none)
  | e => (e, none)

/-- The `mmio_write32_native`/`mmio_write64_native` from mmio.c (width `w`
bytes): check, then a native-width store to `region->start + offset`.
Returns the error code and the (possibly updated) region. -/
def mmio_write_native (hostBE : Bool) (w : Nat) (region : Option ocxl_mmio_area)
    (offset : Int) (value : Nat) : ocxl_err × Option ocxl_mmio_area :=
  match mmio_check region offset w with
  | OCXL_OK =>
    match region with
    | some r =>
      match r.start with
      | some m =>
        (OCXL_OK, some { r with start := some (storeBytes m offset (hostBytes hostBE w value)) })
      | none => (OCXL_INVALID_ARGS, region)
    | none => (OCXL_INVALID_ARGS, region)
  | e => (e, region)

/-- The `ocxl_mmio_read32` from mmio.c:630: native read then endian conversion
(`be32toh`, `le32toh`, or none). -/
def ocxl_mmio_read32 (hostBE : Bool) (mmio : Option ocxl_mmio_area) (offset : Int)
    (endian : ocxl_endian) : ocxl_err × Option Nat :=
  match mmio_read_native hostBE 4 mmio offset with
  | (OCXL_OK, some val) =>
    match endian with
    | OCXL_MMIO_BIG_ENDIAN => (OCXL_OK, some (htobe hostBE 4 val))
    | OCXL_MMIO_LITTLE_ENDIAN => (OCXL_OK, some (htole hostBE 4 val))
    | OCXL_MMIO_HOST_ENDIAN => (OCXL_OK, some val)
  | (e, _) => (e, none)

/-- The `ocxl_mmio_read64` from mmio.c:674. -/
def ocxl_mmio_read64 (hostBE : Bool) (mmio : Option ocxl_mmio_area) (offset : Int)
    (endian : ocxl_endian) : ocxl_err × Option Nat :=
  match mmio_read_native hostBE 8 mmio offset with
  | (OCXL_OK, some val) =>
    match endian with
    | OCXL_MMIO_BIG_ENDIAN => (OCXL_OK, some (htobe hostBE 8 val))
    | OCXL_MMIO_LITTLE_ENDIAN => (OCXL_OK, some (htole hostBE 8 val))
    | OCXL_MMIO_HOST_ENDIAN => (OCXL_OK, some val)
  | (e, _) => (e, none)

/-- The `ocxl_mmio_write32` from mmio.c:718: endian conversion (`htobe32`,
`htole32`, or none) then native write. -/
def ocxl_mmio_write32 (hostBE : Bool) (mmio : Option ocxl_mmio_area) (offset : Int)
    (endian : ocxl_endian) (value : Nat) : ocxl_err × Option ocxl_mmio_area :=
  let value :=
    match endian with
    | OCXL_MMIO_BIG_ENDIAN => htobe hostBE 4 value
    | OCXL_MMIO_LITTLE_ENDIAN => htole hostBE 4 value
    | OCXL_MMIO_HOST_ENDIAN => value
  mmio_write_native hostBE 4 mmio offset value

/-- The `ocxl_mmio_write64` from mmio.c:753. -/
def ocxl_mmio_write64 (hostBE : Bool) (mmio : Option ocxl_mmio_area) (offset : Int)
    (endian : ocxl_endian) (value : Nat) : ocxl_err × Option ocxl_mmio_area :=
  let value :=
    match endian with
    | OCXL_MMIO_BIG_ENDIAN => htobe hostBE 8 value
    | OCXL_MMIO_LITTLE_ENDIAN => htole hostBE 8 value
    | OCXL_MMIO_HOST_ENDIAN => value
  mmio_write_native hostBE 8 mmio offset value

/-- The `ocxl_mmio_unmap` from mmio.c:336: a no-op on an already-unmapped
region, otherwise munmaps and sets `start` to NULL. -/
def ocxl_mmio_unmap (region : ocxl_mmio_area) : ocxl_mmio_area :=
  match region.start with
  | none => region
  | some _ => { region with start := none }

/-! ### Arithmetic and byte-list lemmas -/

theorem mod_mul_decomp (v b c : Nat) (hb : 0 < b) (hc : 0 < c) :
    v % (b * c) = v % b + b * (v / b % c) := by
  conv_lhs => rw [← Nat.div_add_mod v b]
  rw [Nat.add_mod, Nat.mul_mod_mul_left,
    Nat.mod_eq_of_lt (Nat.lt_of_lt_of_le (Nat.mod_lt _ hb) (Nat.le_mul_of_pos_right b hc))]
  have h1 : v / b % c < c := Nat.mod_lt _ hc
  have h2 : v % b < b := Nat.mod_lt _ hb
  have h4 : b * (v / b % c) + v % b < b * c := by
    calc b * (v / b % c) + v % b < b * (v / b % c) + b := by omega
    _ = b * (v / b % c + 1) := by ring
    _ ≤ b * c := Nat.mul_le_mul_left b (by omega)
  rw [Nat.mod_eq_of_lt h4]
  omega

theorem length_natToBytesLE (w v : Nat) : (natToBytesLE w v).length = w := by
  induction w generalizing v with
  | zero => rfl
  | succ w ih => simp [natToBytesLE, ih]

theorem natToBytesLE_lt (w v : Nat) : ∀ b ∈ natToBytesLE w v, b < 256 := by
  induction w generalizing v with
  | zero => simp [natToBytesLE]
  | succ w ih =>
    intro b hb
    simp only [natToBytesLE, List.mem_cons] at hb
    rcases hb with h | h
    · omega
    · exact ih _ _ h

theorem bytesToNatLE_natToBytesLE (w v : Nat) :
    bytesToNatLE (natToBytesLE w v) = v % 256 ^ w := by
  induction w generalizing v with
  | zero => simp [natToBytesLE, bytesToNatLE, Nat.mod_one]
  | succ w ih =>
    rw [pow_succ, mul_comm (256 ^ w) 256,
      mod_mul_decomp v 256 (256 ^ w) (by omega) (Nat.pos_pow_of_pos w (by omega))]
    simp [natToBytesLE, bytesToNatLE, ih]

theorem bytesToNatLE_lt (l : List Nat) (hl : ∀ b ∈ l, b < 256) :
    bytesToNatLE l < 256 ^ l.length := by
  induction l with
  | nil => simp [bytesToNatLE]
  | cons b bs ih =>
    have hb : b < 256 := hl b (List.mem_cons_self b bs)
    have hbs := ih (fun x hx => hl x (List.mem_cons_of_mem b hx))
    simp only [bytesToNatLE, List.length_cons, pow_succ]
    calc b + 256 * bytesToNatLE bs < 256 + 256 * bytesToNatLE bs := by omega
    _ = 256 * (bytesToNatLE bs + 1) := by ring
    _ ≤ 256 * 256 ^ bs.length := Nat.mul_le_mul_left 256 (by omega)
    _ = 256 ^ bs.length * 256 := by ring

theorem natToBytesLE_bytesToNatLE (l : List Nat) (hl : ∀ b ∈ l, b < 256) :
    natToBytesLE l.length (bytesToNatLE l) = l := by
  induction l with
  | nil => rfl
  | cons b bs ih =>
    have hb : b < 256 := hl b (List.mem_cons_self b bs)
    simp only [List.length_cons, natToBytesLE, bytesToNatLE, List.cons.injEq]
    constructor
    · omega
    · rw [Nat.add_mul_div_left b _ (by omega : 0 < 256), Nat.div_eq_of_lt hb, Nat.zero_add]
      exact ih (fun x hx => hl x (List.mem_cons_of_mem b hx))

theorem storeBytes_lower (l : List Nat) (m : Mem) (a x : Int) (h : x < a) :
    storeBytes m a l x = m x := by
  induction l generalizing m a with
  | nil => rfl
  | cons b bs ih =>
    simp only [storeBytes]
    rw [ih (storeByte m a b) (a + 1) (by omega)]
    simp only [storeByte]
    rw [if_neg (by omega)]

theorem loadBytes_storeBytes (l : List Nat) (m : Mem) (a : Int) :
    loadBytes (storeBytes m a l) a l.length = l := by
  induction l generalizing m a with
  | nil => rfl
  | cons b bs ih =>
    simp only [List.length_cons, loadBytes, storeBytes, List.cons.injEq]
    constructor
    · rw [storeBytes_lower bs _ (a + 1) a (by omega)]
      simp [storeByte]
    · exact ih (storeByte m a b) (a + 1)

theorem bswap_lt (w v : Nat) : bswap w v < 256 ^ w := by
  have h := bytesToNatLE_lt (natToBytesLE w v).reverse
    (by intro b hb; exact natToBytesLE_lt w v b (List.mem_reverse.mp hb))
  simpa [bswap, length_natToBytesLE] using h

theorem bswap_bswap (w v : Nat) (hv : v < 256 ^ w) : bswap w (bswap w v) = v := by
  have hlen : (natToBytesLE w v).reverse.length = w := by
    simp [length_natToBytesLE]
  have henc : natToBytesLE w (bytesToNatLE (natToBytesLE w v).reverse)
      = (natToBytesLE w v).reverse := by
    have h := natToBytesLE_bytesToNatLE (natToBytesLE w v).reverse
      (by intro b hb; exact natToBytesLE_lt w v b (List.mem_reverse.mp hb))
    rwa [hlen] at h
  simp only [bswap]
  rw [henc, List.reverse_reverse, bytesToNatLE_natToBytesLE, Nat.mod_eq_of_lt hv]

theorem hostWord_hostBytes (hostBE : Bool) (w v : Nat) :
    hostWord hostBE (hostBytes hostBE w v) = v % 256 ^ w := by
  cases hostBE <;>
    simp [hostWord, hostBytes, List.reverse_reverse, bytesToNatLE_natToBytesLE]

theorem length_hostBytes (hostBE : Bool) (w v : Nat) :
    (hostBytes hostBE w v).length = w := by
  cases hostBE <;> simp [hostBytes, length_natToBytesLE]

/-! ### Behaviour of the native read/write around `mmio_check` -/

theorem mmio_write_native_fail (hostBE : Bool) (w : Nat) (region : Option ocxl_mmio_area)
    (offset : Int) (v : Nat) (h : mmio_check region offset w ≠ OCXL_OK) :
    mmio_write_native hostBE w region offset v = (mmio_check region offset w, region) := by
  cases hc : mmio_check region offset w <;> simp_all [mmio_write_native]

theorem mmio_read_native_fail (hostBE : Bool) (w : Nat) (region : Option ocxl_mmio_area)
    (offset : Int) (h : mmio_check region offset w ≠ OCXL_OK) :
    mmio_read_native hostBE w region offset = (mmio_check region offset w, none) := by
  cases hc : mmio_check region offset w <;> simp_all [mmio_read_native]

theorem mmio_check_unmapped (len : Nat) (t : ocxl_mmio_type) (offset : Int) (w : Nat) :
    mmio_check (some ⟨none, len, t⟩) offset w = OCXL_INVALID_ARGS := rfl

/-- If the `off_t` comparison in `mmio_check` succeeds, the width-`w` write
stores the host-ordered bytes of the value, and a subsequent width-`w` read
at the same offset recovers it (reduced mod `2^(8w)`). -/
theorem mmio_native_roundtrip (hostBE : Bool) (w : Nat) (m : Mem) (len : Nat)
    (t : ocxl_mmio_type) (off : Int) (v : Nat)
    (hc : mmio_check (some ⟨some m, len, t⟩) off w = OCXL_OK) :
    ∃ m2,
      mmio_write_native hostBE w (some ⟨some m, len, t⟩) off v
        = (OCXL_OK, some ⟨some m2, len, t⟩) ∧
      mmio_read_native hostBE w (some ⟨some m2, len, t⟩) off
        = (OCXL_OK, some (v % 256 ^ w)) := by
  refine ⟨storeBytes m off (hostBytes hostBE w v), ?_, ?_⟩
  · simp [mmio_write_native, hc]
  · have hc2 : mmio_check (some ⟨some (storeBytes m off (hostBytes hostBE w v)), len, t⟩) off w
        = OCXL_OK := hc
    simp only [mmio_read_native, hc2]
    have hload : loadBytes (storeBytes m off (hostBytes hostBE w v)) off w
        = hostBytes hostBE w v := by
      have h := loadBytes_storeBytes (hostBytes hostBE w v) m off
      rwa [length_hostBytes] at h
    rw [hload, hostWord_hostBytes]

/-- If `offset + w ≤ length` (with `length` small enough to be a real
mapping) the `mmio_check` comparison succeeds. -/
theorem mmio_check_in_bounds (m : Mem) (len : Nat) (t : ocxl_mmio_type) (off w : Nat)
    (hw : w = 4 ∨ w = 8) (hlen : len < two63) (hoff : off + w ≤ len) :
    mmio_check (some ⟨some m, len, t⟩) (off : Int) w = OCXL_OK := by
  rcases hw with h | h <;> subst h <;>
  · simp only [mmio_check, sub64, toSigned64, two64, two63] at *
    split_ifs <;> first | rfl | omega

/-- Claim C1: For every MMIO region and every read/write of width `w ∈ {4, 8}`
bytes at byte offset `off`: on an unmapped region (`start` NULL) the
operation returns `OCXL_INVALID_ARGS`; on a mapped region, whenever
`off + w > length` (in particular whenever `length < w`, and exactly at
`off = length - w + 1`) the validation returns `OCXL_OUT_OF_BOUNDS`; at
`off = length - w` the validation succeeds; and whenever validation fails
the operation leaves the region's memory untouched and reads no value.
(`length < 2^63` for the success part: an mmap'd region can never be
larger, and for larger `length` the `size_t`→`off_t` cast in `mmio_check`
makes the limit negative.) -/
theorem C1_mmio_bounds_and_unmapped_validation (w : Nat) (hw : w = 4 ∨ w = 8)
    (len : Nat) (m : Mem) (t : ocxl_mmio_type) (off : Nat) :
    (∀ hostBE v,
      mmio_read_native hostBE w (some ⟨none, len, t⟩) (off : Int) = (OCXL_INVALID_ARGS, none) ∧
      mmio_write_native hostBE w (some ⟨none, len, t⟩) (off : Int) v
        = (OCXL_INVALID_ARGS, some ⟨none, len, t⟩)) ∧
    (off + w > len → mmio_check (some ⟨some m, len, t⟩) (off : Int) w = OCXL_OUT_OF_BOUNDS) ∧
    (len < two63 → w ≤ len →
      mmio_check (some ⟨some m, len, t⟩) ((len : Int) - (w : Int)) w = OCXL_OK) ∧
    (∀ hostBE v, mmio_check (some ⟨some m, len, t⟩) (off : Int) w ≠ OCXL_OK →
      (mmio_write_native hostBE w (some ⟨some m, len, t⟩) (off : Int) v).2
        = some ⟨some m, len, t⟩ ∧
      (mmio_read_native hostBE w (some ⟨some m, len, t⟩) (off : Int)).2 = none) := by
  refine ⟨?_, ?_, ?_, ?_⟩
  · intro hostBE v
    constructor
    · rw [mmio_read_native_fail hostBE w _ _ (by rw [mmio_check_unmapped]; intro h; cases h),
        mmio_check_unmapped]
    · rw [mmio_write_native_fail hostBE w _ _ v (by rw [mmio_check_unmapped]; intro h; cases h),
        mmio_check_unmapped]
  · intro hoff
    rcases hw with h | h <;> subst h <;>
    · simp only [mmio_check, sub64, toSigned64, two64, two63] at *
      split_ifs <;> first | rfl | omega
  · intro hlen hwlen
    rcases hw with h | h <;> subst h <;>
    · simp only [mmio_check, sub64, toSigned64, two64, two63] at *
      split_ifs <;> first | rfl | omega
  · intro hostBE v hfail
    rw [mmio_write_native_fail hostBE w _ _ v hfail, mmio_read_native_fail hostBE w _ _ hfail]
    exact ⟨rfl, rfl⟩

/-- Witness for C1 at `w = 4`, `length = 16`: offset `13 = 16 - 4 + 1` is
rejected as out of bounds and offset `12 = 16 - 4` passes validation. -/
theorem C1_witness :
    (4 = 4 ∨ 4 = 8) ∧ (13 + 4 > 16) ∧ (16 < two63) ∧ (4 ≤ 16) ∧
    mmio_check (some ⟨some (fun _ => 0), 16, OCXL_GLOBAL_MMIO⟩) ((13 : Nat) : Int) 4
      = OCXL_OUT_OF_BOUNDS ∧
    mmio_check (some ⟨some (fun _ => 0), 16, OCXL_GLOBAL_MMIO⟩) ((16 : Int) - (4 : Int)) 4
      = OCXL_OK := by
  refine ⟨Or.inl rfl, by omega, by decide, by omega, ?_, ?_⟩
  · exact (C1_mmio_bounds_and_unmapped_validation 4 (Or.inl rfl) 16 (fun _ => 0)
      OCXL_GLOBAL_MMIO 13).2.1 (by omega)
  · exact (C1_mmio_bounds_and_unmapped_validation 4 (Or.inl rfl) 16 (fun _ => 0)
      OCXL_GLOBAL_MMIO 13).2.2.1 (by decide) (by omega)

/-- Claim C10: every public MMIO read/write called with a NULL region handle
returns `OCXL_INVALID_ARGS` without dereferencing the handle: the
`if (!region)` branch of `mmio_check` fires before any field of the region
is accessed, no value is produced and no memory is written. -/
theorem C10_null_region_handle_rejected (hostBE : Bool) (off : Int) (e : ocxl_endian) (v : Nat) :
    ocxl_mmio_read32 hostBE none off e = (OCXL_INVALID_ARGS, none) ∧
    ocxl_mmio_read64 hostBE none off e = (OCXL_INVALID_ARGS, none) ∧
    ocxl_mmio_write32 hostBE none off e v = (OCXL_INVALID_ARGS, none) ∧
    ocxl_mmio_write64 hostBE none off e v = (OCXL_INVALID_ARGS, none) := by
  cases e <;>
    simp [ocxl_mmio_read32, ocxl_mmio_read64, ocxl_mmio_write32, ocxl_mmio_write64,
      mmio_read_native, mmio_write_native, mmio_check]

/-! ### Endianness conversions are involutive -/

theorem htobe_lt (hostBE : Bool) (w v : Nat) (hv : v < 256 ^ w) : htobe hostBE w v < 256 ^ w := by
  cases hostBE <;> simp [htobe, bswap_lt, hv]

theorem htole_lt (hostBE : Bool) (w v : Nat) (hv : v < 256 ^ w) : htole hostBE w v < 256 ^ w := by
  cases hostBE <;> simp [htole, bswap_lt, hv]

theorem htobe_htobe (hostBE : Bool) (w v : Nat) (hv : v < 256 ^ w) :
    htobe hostBE w (htobe hostBE w v) = v := by
  cases hostBE <;> simp [htobe, bswap_bswap w v hv]

theorem htole_htole (hostBE : Bool) (w v : Nat) (hv : v < 256 ^ w) :
    htole hostBE w (htole hostBE w v) = v := by
  cases hostBE <;> simp [htole, bswap_bswap w v hv]

/-- The 32-bit write-then-read round trip through the endianness wrappers, given
that the bounds validation passes. -/
theorem mmio_rw32_roundtrip (hostBE : Bool) (m : Mem) (len : Nat) (t : ocxl_mmio_type)
    (off : Int) (v : Nat) (e : ocxl_endian)
    (hc : mmio_check (some ⟨some m, len, t⟩) off 4 = OCXL_OK) (hv : v < 256 ^ 4) :
    ∃ m2,
      ocxl_mmio_write32 hostBE (some ⟨some m, len, t⟩) off e v
        = (OCXL_OK, some ⟨some m2, len, t⟩) ∧
      ocxl_mmio_read32 hostBE (some ⟨some m2, len, t⟩) off e = (OCXL_OK, some v) := by
  cases e
  case OCXL_MMIO_BIG_ENDIAN =>
    obtain ⟨m2, hwn, hrn⟩ := mmio_native_roundtrip hostBE 4 m len t off (htobe hostBE 4 v) hc
    rw [Nat.mod_eq_of_lt (htobe_lt hostBE 4 v hv)] at hrn
    exact ⟨m2, by simpa [ocxl_mmio_write32] using hwn,
      by simp [ocxl_mmio_read32, hrn, htobe_htobe hostBE 4 v hv]⟩
  case OCXL_MMIO_LITTLE_ENDIAN =>
    obtain ⟨m2, hwn, hrn⟩ := mmio_native_roundtrip hostBE 4 m len t off (htole hostBE 4 v) hc
    rw [Nat.mod_eq_of_lt (htole_lt hostBE 4 v hv)] at hrn
    exact ⟨m2, by simpa [ocxl_mmio_write32] using hwn,
      by simp [ocxl_mmio_read32, hrn, htole_htole hostBE 4 v hv]⟩
  case OCXL_MMIO_HOST_ENDIAN =>
    obtain ⟨m2, hwn, hrn⟩ := mmio_native_roundtrip hostBE 4 m len t off v hc
    rw [Nat.mod_eq_of_lt hv] at hrn
    exact ⟨m2, by simpa [ocxl_mmio_write32] using hwn, by simp [ocxl_mmio_read32, hrn]⟩

/-- The 64-bit write-then-read round trip through the endianness wrappers, given
that the bounds validation passes. -/
theorem mmio_rw64_roundtrip (hostBE : Bool) (m : Mem) (len : Nat) (t : ocxl_mmio_type)
    (off : Int) (v : Nat) (e : ocxl_endian)
    (hc : mmio_check (some ⟨some m, len, t⟩) off 8 = OCXL_OK) (hv : v < 256 ^ 8) :
    ∃ m2,
      ocxl_mmio_write64 hostBE (some ⟨some m, len, t⟩) off e v
        = (OCXL_OK, some ⟨some m2, len, t⟩) ∧
      ocxl_mmio_read64 hostBE (some ⟨some m2, len, t⟩) off e = (OCXL_OK, some v) := by
  cases e
  case OCXL_MMIO_BIG_ENDIAN =>
    obtain ⟨m2, hwn, hrn⟩ := mmio_native_roundtrip hostBE 8 m len t off (htobe hostBE 8 v) hc
    rw [Nat.mod_eq_of_lt (htobe_lt hostBE 8 v hv)] at hrn
    exact ⟨m2, by simpa [ocxl_mmio_write64] using hwn,
      by simp [ocxl_mmio_read64, hrn, htobe_htobe hostBE 8 v hv]⟩
  case OCXL_MMIO_LITTLE_ENDIAN =>
    obtain ⟨m2, hwn, hrn⟩ := mmio_native_roundtrip hostBE 8 m len t off (htole hostBE 8 v) hc
    rw [Nat.mod_eq_of_lt (htole_lt hostBE 8 v hv)] at hrn
    exact ⟨m2, by simpa [ocxl_mmio_write64] using hwn,
      by simp [ocxl_mmio_read64, hrn, htole_htole hostBE 8 v hv]⟩
  case OCXL_MMIO_HOST_ENDIAN =>
    obtain ⟨m2, hwn, hrn⟩ := mmio_native_roundtrip hostBE 8 m len t off v hc
    rw [Nat.mod_eq_of_lt hv] at hrn
    exact ⟨m2, by simpa [ocxl_mmio_write64] using hwn, by simp [ocxl_mmio_read64, hrn]⟩

/-- Claim C4: For every mapped MMIO region, every width (32/64 bits), every
endianness mode, every value of that width, and every in-bounds aligned
offset (`off + w/8 ≤ length`, `off` a multiple of the access width), a write
followed by a read at the same offset and endianness returns exactly the
value written, on both big- and little-endian hosts. -/
theorem C4_write_read_roundtrip (hostBE : Bool) (m : Mem) (len : Nat) (t : ocxl_mmio_type)
    (off : Nat) (e : ocxl_endian) (hlen : len < two63) :
    (∀ v, v < 2 ^ 32 → off % 4 = 0 → off + 4 ≤ len → ∃ m2,
      ocxl_mmio_write32 hostBE (some ⟨some m, len, t⟩) (off : Int) e v
        = (OCXL_OK, some ⟨some m2, len, t⟩) ∧
      ocxl_mmio_read32 hostBE (some ⟨some m2, len, t⟩) (off : Int) e = (OCXL_OK, some v)) ∧
    (∀ v, v < 2 ^ 64 → off % 8 = 0 → off + 8 ≤ len → ∃ m2,
      ocxl_mmio_write64 hostBE (some ⟨some m, len, t⟩) (off : Int) e v
        = (OCXL_OK, some ⟨some m2, len, t⟩) ∧
      ocxl_mmio_read64 hostBE (some ⟨some m2, len, t⟩) (off : Int) e = (OCXL_OK, some v)) := by
  constructor
  · intro v hv _ hoff
    exact mmio_rw32_roundtrip hostBE m len t off v e
      (mmio_check_in_bounds m len t off 4 (Or.inl rfl) hlen hoff)
      (by norm_num at hv ⊢; exact hv)
  · intro v hv _ hoff
    exact mmio_rw64_roundtrip hostBE m len t off v e
      (mmio_check_in_bounds m len t off 8 (Or.inr rfl) hlen hoff)
      (by norm_num at hv ⊢; exact hv)

/-- Witness for C4: on a little-endian host, a big-endian 32-bit write of
`0x12345678` at offset 8 of a 16-byte region reads back as `0x12345678`. -/
theorem C4_witness :
    16 < two63 ∧ (0x12345678 : Nat) < 2 ^ 32 ∧ (8 : Nat) % 4 = 0 ∧ 8 + 4 ≤ 16 ∧
    ∃ m2,
      ocxl_mmio_write32 false (some ⟨some (fun _ => 0), 16, OCXL_GLOBAL_MMIO⟩) ((8 : Nat) : Int)
          OCXL_MMIO_BIG_ENDIAN 0x12345678
        = (OCXL_OK, some ⟨some m2, 16, OCXL_GLOBAL_MMIO⟩) ∧
      ocxl_mmio_read32 false (some ⟨some m2, 16, OCXL_GLOBAL_MMIO⟩) ((8 : Nat) : Int)
          OCXL_MMIO_BIG_ENDIAN = (OCXL_OK, some 0x12345678) :=
  ⟨by decide, by norm_num, by omega, by omega,
    (C4_write_read_roundtrip false (fun _ => 0) 16 OCXL_GLOBAL_MMIO 8 OCXL_MMIO_BIG_ENDIAN
      (by decide)).1 0x12345678 (by norm_num) (by omega) (by omega)⟩

/-! ### The AFU context (struct ocxl_afu, afu.c)

Kernel and allocator responses (ioctl results, mmap results, descriptor
numbers) are supplied as explicit environment parameters.  `free()` is
modelled by a `freed` flag: the C storage keeps its last-written field
values, which is what a (use-after-free) access would observe. -/

/-- The `struct ocxl_irq` from libocxl_internal.h. -/
structure ocxl_irq where
  irq_offset : Nat
  eventfd : Int
  irq_number : Nat
  addr : Nat
  info : Option Nat
  deriving DecidableEq, Repr

/-- The `struct ocxl_afu` from libocxl_internal.h (fields the claims touch;
string paths, trace/error-handler state and the PPC64 AMR are omitted). -/
structure ocxl_afu where
  version_major : Nat
  version_minor : Nat
  fd : Int
  irq_fd : Int
  epoll_fd : Int
  epoll_event_count : Nat
  global_mmio_fd : Int
  global_mmio_length : Nat
  per_pasid_mmio_length : Nat
  pasid : Nat
  irqs : List ocxl_irq
  mmios : List ocxl_mmio_area
  attached : Bool
  freed : Bool

/-- The `afu_init` from afu.c:172.  It initializes the fields listed there —
note that it does NOT write `attached`, `pasid`, `mmios`/`mmio_count` or
`freed`: those keep whatever the malloc'd storage held. -/
def afu_init (afu : ocxl_afu) : ocxl_afu :=
  { afu with
    version_major := 0, version_minor := 0, fd := -1, irq_fd := -1, epoll_fd := -1,
    epoll_event_count := 0, global_mmio_fd := -1, global_mmio_length := 0,
    per_pasid_mmio_length := 0, irqs := [] }

/-- Kernel/descriptor responses consumed by `afu_open`. -/
structure AfuOpenEnv where
  dev_enospc : Bool      -- open(device) failed with ENOSPC
  dev_fd : Option Int    -- open(device) result (none: failed otherwise)
  irq_dev_fd : Option Int -- open(usrirq device) result
  epoll_fd : Option Int  -- epoll_create1 result
  epoll_ctl_ok : Bool    -- EPOLL_CTL_ADD of the device fd
  deriving DecidableEq, Repr

/-- The `afu_open` from afu.c:461: open the device (ENOSPC distinguishes
context exhaustion from `OCXL_NO_DEV`), then the user-IRQ device, then the
epoll descriptor, then register the device fd with epoll. -/
def afu_open (env : AfuOpenEnv) (afu : ocxl_afu) : ocxl_err × ocxl_afu :=
  if afu.fd ≠ -1 then (OCXL_ALREADY_DONE, afu)
  else if env.dev_enospc then (OCXL_NO_MORE_CONTEXTS, afu)
  else
    match env.dev_fd with
    | none => (OCXL_NO_DEV, afu)
    | some n =>
      let afu := { afu with fd := n }
      match env.irq_dev_fd with
      | none => (OCXL_NO_DEV, afu)
      | some i =>
        let afu := { afu with irq_fd := i }
        match env.epoll_fd with
        | none => (OCXL_NO_DEV, afu)
        | some ep =>
          let afu := { afu with epoll_fd := ep }
          if !env.epoll_ctl_ok then (OCXL_NO_DEV, afu)
          else (OCXL_OK, afu)

/-- The `ocxl_afu_attach` from afu.c:826: fails with `OCXL_NO_CONTEXT` when the
context was never opened (`fd == -1`), with `OCXL_INTERNAL_ERROR` when the
`OCXL_IOCTL_ATTACH` ioctl fails, and otherwise returns `OCXL_OK`.  Faithful
to the source, it does NOT set `afu->attached`: no assignment to that field
exists anywhere in src. -/
def ocxl_afu_attach (ioctl_ok : Bool) (afu : ocxl_afu) : ocxl_err × ocxl_afu :=
  if afu.fd = -1 then (OCXL_NO_CONTEXT, afu)
  else if !ioctl_ok then (OCXL_INTERNAL_ERROR, afu)
  else (OCXL_OK, afu)

/-- Environment responses for one MMIO map request. -/
structure MapEnv where
  mmap_ok : Bool      -- mmap did not return MAP_FAILED
  register_ok : Bool  -- register_mmio / grow_buffer succeeded
  deriving DecidableEq, Repr

/-- The `mmio_map` from mmio.c:202 (per-PASID; error/side-effect skeleton):
rejects nonzero flags, an unopened AFU (`fd < 0` → `OCXL_NO_CONTEXT`) and an
unattached AFU (`!afu->attached` → `OCXL_NO_CONTEXT`) before mmap.  The
returned Bool records whether the kernel mapping was attempted. -/
def mmio_map (fd : Int) (attached : Bool) (env : MapEnv) (flags : Nat) : ocxl_err × Bool :=
  if flags ≠ 0 then (OCXL_INVALID_ARGS, false)
  else if fd < 0 then (OCXL_NO_CONTEXT, false)
  else if !attached then (OCXL_NO_CONTEXT, false)
  else if !env.mmap_ok then (OCXL_NO_MEM, true)
  else if !env.register_ok then (OCXL_NO_MEM, true)
  else (OCXL_OK, true)

/-- The `ocxl_afu_get_version` from afu.c:97. -/
def ocxl_afu_get_version (afu : ocxl_afu) : Nat × Nat := (afu.version_major, afu.version_minor)

/-- The `ocxl_afu_get_fd` from afu.c:110. -/
def ocxl_afu_get_fd (afu : ocxl_afu) : Int := afu.fd

/-- The `ocxl_afu_get_global_mmio_size` from afu.c:123. -/
def ocxl_afu_get_global_mmio_size (afu : ocxl_afu) : Nat := afu.global_mmio_length

/-- The `ocxl_afu_get_mmio_size` from afu.c:136. -/
def ocxl_afu_get_mmio_size (afu : ocxl_afu) : Nat := afu.per_pasid_mmio_length

/-- Modelled from the spec: the MMIO-unmapping step of close.  afu.c:1030-1031
calls `ocxl_mmio_unmap(afu)` and `ocxl_global_mmio_unmap(afu)`, entry points
of an older API generation whose definitions are missing from src; spec
§4.2 close step (a) says "unmap every still-mapped MmioRegion", which is
what this performs on the context's registered regions. -/
def close_unmap_regions (mmios : List ocxl_mmio_area) : List ocxl_mmio_area :=
  mmios.map ocxl_mmio_unmap

/-- The `ocxl_afu_close` from afu.c:1022: `OCXL_ALREADY_DONE` when `fd < 0`;
otherwise unmaps the MMIO regions (see `close_unmap_regions`), deallocates
every IRQ and frees the IRQ array, frees the epoll buffer, closes and
resets `fd`, and frees the struct itself (`freed`).  Note the metadata
fields (version, MMIO lengths, PASID) are not reset before the storage is
freed. -/
def ocxl_afu_close (afu : ocxl_afu) : ocxl_err × ocxl_afu :=
  if afu.fd < 0 then (OCXL_ALREADY_DONE, afu)
  else
    (OCXL_OK,
      { afu with
        mmios := close_unmap_regions afu.mmios,
        irqs := [],
        epoll_event_count := 0,
        fd := -1,
        freed := true })

/-- One possible content of the malloc'd `ocxl_afu` before `afu_init` runs
(malloc leaves the storage indeterminate; in particular `attached` may hold
any value — afu_init never writes it). -/
def malloc_state_example : ocxl_afu :=
  { version_major := 17, version_minor := 3, fd := 99, irq_fd := 98, epoll_fd := 97,
    epoll_event_count := 5, global_mmio_fd := 96, global_mmio_length := 123,
    per_pasid_mmio_length := 456, pasid := 789, irqs := [], mmios := [],
    attached := false, freed := false }

/-- An `AfuOpenEnv` where every kernel interaction succeeds. -/
def open_env_ok : AfuOpenEnv :=
  { dev_enospc := false, dev_fd := some 3, irq_dev_fd := some 4, epoll_fd := some 5,
    epoll_ctl_ok := true }

/-- Claim C2 (code bug): attach on a never-opened context correctly returns
`OCXL_NO_CONTEXT`; but after a successful `afu_open` + `ocxl_afu_attach`
(kernel attach ioctl succeeding), `attached` is still false — `ocxl_afu_attach`
contains no `my_afu->attached = true` — so the per-PASID `mmio_map`
immediately fails its attachment-state precondition with `OCXL_NO_CONTEXT`,
contradicting the claim (and mmio.c's own documented contract that per-PASID
mapping succeeds on an opened-and-attached AFU). -/
theorem C2_attach_leaves_attached_false :
    (ocxl_afu_attach true (afu_init malloc_state_example)).1 = OCXL_NO_CONTEXT ∧
    ((afu_open open_env_ok (afu_init malloc_state_example)).1 = OCXL_OK ∧
      (ocxl_afu_attach true (afu_open open_env_ok (afu_init malloc_state_example)).2).1
        = OCXL_OK ∧
      (ocxl_afu_attach true (afu_open open_env_ok (afu_init malloc_state_example)).2).2.attached
        = false ∧
      (mmio_map
        (ocxl_afu_attach true (afu_open open_env_ok (afu_init malloc_state_example)).2).2.fd
        (ocxl_afu_attach true (afu_open open_env_ok (afu_init malloc_state_example)).2).2.attached
        ⟨true, true⟩ 0).1 = OCXL_NO_CONTEXT) := by
  refine ⟨rfl, rfl, rfl, rfl, rfl⟩

/-- Counterexample to **C5** as stated: an opened context whose AFU reports
version 5.10; after the first (successful) close, the version getter still
returns (5, 10), not the zeroed default (0, 0) that `afu_init` establishes —
`ocxl_afu_close` frees the struct without resetting the metadata fields. -/
theorem C5_counterexample :
    (ocxl_afu_close
        { malloc_state_example with fd := 3, version_major := 5, version_minor := 10 }).1
      = OCXL_OK ∧
    ocxl_afu_get_version
        (ocxl_afu_close
          { malloc_state_example with fd := 3, version_major := 5, version_minor := 10 }).2
      = (5, 10) ∧
    ((5 : Nat), (10 : Nat)) ≠ ((0 : Nat), (0 : Nat)) := by
  refine ⟨rfl, rfl, by decide⟩

/-- Claim C5 (amended): calling close twice returns `OCXL_OK` then
`OCXL_ALREADY_DONE` (the first close sets `fd` to -1, which is what the
second call tests — although the storage it reads has been freed); after the
first close the fd getter returns the sentinel -1, but the metadata getters
(version, global and per-PASID MMIO sizes) are NOT reset to their zeroed
defaults: they return the same values as before the close. -/
theorem C5_amended_close_idempotent_getters_not_zeroed (afu : ocxl_afu) (h : 0 ≤ afu.fd) :
    (ocxl_afu_close afu).1 = OCXL_OK ∧
    (ocxl_afu_close (ocxl_afu_close afu).2).1 = OCXL_ALREADY_DONE ∧
    ocxl_afu_get_fd (ocxl_afu_close afu).2 = -1 ∧
    (ocxl_afu_close afu).2.freed = true ∧
    ocxl_afu_get_version (ocxl_afu_close afu).2 = ocxl_afu_get_version afu ∧
    ocxl_afu_get_global_mmio_size (ocxl_afu_close afu).2 = ocxl_afu_get_global_mmio_size afu ∧
    ocxl_afu_get_mmio_size (ocxl_afu_close afu).2 = ocxl_afu_get_mmio_size afu := by
  have hne : ¬afu.fd < 0 := by omega
  simp [ocxl_afu_close, hne, ocxl_afu_get_fd, ocxl_afu_get_version,
    ocxl_afu_get_global_mmio_size, ocxl_afu_get_mmio_size]

/-- Witness for the amended C5 on a concrete opened context. -/
theorem C5_amended_witness :
    (0 : Int) ≤ 3 ∧
    (ocxl_afu_close { malloc_state_example with fd := 3 }).1 = OCXL_OK ∧
    (ocxl_afu_close (ocxl_afu_close { malloc_state_example with fd := 3 }).2).1
      = OCXL_ALREADY_DONE := by
  have h := C5_amended_close_idempotent_getters_not_zeroed
    { malloc_state_example with fd := 3 } (by norm_num)
  exact ⟨by norm_num, h.1, h.2.1⟩

/-- Kernel responses consumed by one `irq_allocate` call. -/
structure IrqAllocEnv where
  eventfd : Option Int     -- eventfd(0, EFD_CLOEXEC) result (none: failed)
  alloc_offset : Option Nat -- OCXL_IOCTL_IRQ_ALLOC result (none: ioctl failed)
  set_fd_ok : Bool         -- OCXL_IOCTL_IRQ_SET_FD
  mmap_addr : Option Nat   -- mmap of the trigger page (none: MAP_FAILED)
  epoll_ctl_ok : Bool      -- EPOLL_CTL_ADD of the eventfd
  grow_ok : Bool           -- grow_buffer, when the IRQ array was full
  deriving DecidableEq, Repr

/-- The `irq_allocate` from irq.c:93: eventfd, `OCXL_IOCTL_IRQ_ALLOC`,
`OCXL_IOCTL_IRQ_SET_FD`, mmap of the trigger page, epoll registration —
failure at any step rolls the slot back (`irq_dealloc`) and propagates
`OCXL_INTERNAL_ERROR`; on success the slot holds the mapped page address
(whose integer value is the IRQ handle). -/
def irq_allocate (env : IrqAllocEnv) (info : Option Nat) : ocxl_err × Option ocxl_irq :=
  match env.eventfd with
  | none => (OCXL_INTERNAL_ERROR, none)
  | some efd =>
    match env.alloc_offset with
    | none => (OCXL_INTERNAL_ERROR, none)
    | some off =>
      if !env.set_fd_ok then (OCXL_INTERNAL_ERROR, none)
      else
        match env.mmap_addr with
        | none => (OCXL_INTERNAL_ERROR, none)
        | some addr =>
          if !env.epoll_ctl_ok then (OCXL_INTERNAL_ERROR, none)
          else (OCXL_OK, some
            { irq_offset := off, eventfd := efd, irq_number := 65535, addr := addr,
              info := info })

/-- The `ocxl_irq_alloc` from irq.c:164: grow the IRQ array if it is full, call
`irq_allocate` on slot `irq_count`, stamp the slot's `irq_number` with the
current count, return that count as the new IRQ index and increment the
count.  (`grow_ok` stands for the grow_buffer call, made only when the
array was full.) -/
def ocxl_irq_alloc (env : IrqAllocEnv) (info : Option Nat) (afu : ocxl_afu) :
    ocxl_err × Option Nat × ocxl_afu :=
  if !env.grow_ok then (OCXL_NO_MEM, none, afu)
  else
    match irq_allocate env info with
    | (rc, none) => (rc, none, afu)
    | (_, some irq) =>
      let n := afu.irqs.length
      (OCXL_OK, some n, { afu with irqs := afu.irqs ++ [{ irq with irq_number := n }] })

/-- The `ocxl_irq_get_handle` from irq.c:197.  The C bound check is
`irq > afu->irq_count` (not `>=`), so at `irq = irq_count` it reads
`afu->irqs[irq_count]`, one past the allocated slots; that read is
modelled as `none` (no allocated slot backs the memory it touches). -/
def ocxl_irq_get_handle (afu : ocxl_afu) (irq : Nat) : Option Nat :=
  if irq > afu.irqs.length then some 0
  else afu.irqs[irq]?.map (fun q => q.addr)

/-- The `ocxl_irq_get_fd` from irq.c:216, with the same `>` bound check. -/
def ocxl_irq_get_fd (afu : ocxl_afu) (irq : Nat) : Option Int :=
  if irq > afu.irqs.length then some (-1)
  else afu.irqs[irq]?.map (fun q => q.eventfd)

/-- A sequence of `ocxl_irq_alloc` calls, returning the final context and
the per-call results (error code, returned IRQ index). -/
def irq_alloc_trace (afu : ocxl_afu) : List (IrqAllocEnv × Option Nat) →
    ocxl_afu × List (ocxl_err × Option Nat)
  | [] => (afu, [])
  | (env, info) :: rest =>
    let step := ocxl_irq_alloc env info afu
    let r := irq_alloc_trace step.2.2 rest
    (r.1, (step.1, step.2.1) :: r.2)

/-- All kernel interactions of one allocation succeeded. -/
def irqEnvOk (env : IrqAllocEnv) : Bool :=
  env.grow_ok && env.eventfd.isSome && env.alloc_offset.isSome && env.set_fd_ok &&
    env.mmap_addr.isSome && env.epoll_ctl_ok

theorem ocxl_irq_alloc_ok (env : IrqAllocEnv) (info : Option Nat) (afu : ocxl_afu)
    (h : irqEnvOk env = true) :
    ocxl_irq_alloc env info afu =
      (OCXL_OK, some afu.irqs.length,
        { afu with irqs := afu.irqs ++
          [{ irq_offset := env.alloc_offset.getD 0, eventfd := env.eventfd.getD 0,
             irq_number := afu.irqs.length, addr := env.mmap_addr.getD 0, info := info }] }) := by
  simp only [irqEnvOk, Bool.and_eq_true] at h
  obtain ⟨⟨⟨⟨⟨hg, he⟩, ha⟩, hs⟩, hm⟩, hep⟩ := h
  rcases henv : env.eventfd with _ | efd
  · rw [henv] at he; cases he
  rcases halloc : env.alloc_offset with _ | aoff
  · rw [halloc] at ha; cases ha
  rcases hmmap : env.mmap_addr with _ | maddr
  · rw [hmmap] at hm; cases hm
  simp [ocxl_irq_alloc, irq_allocate, hg, henv, halloc, hs, hmmap, hep]

/-- The alloc-trace lemma behind C6: starting from any context, a run of
`N` fully-successful allocations returns `OCXL_OK` with the indices
`count, count+1, …, count+N-1` in order, and appends IRQ slots whose
addresses (handles) are exactly the mmap'd page addresses, in order. -/
theorem irq_alloc_trace_ok (envs : List (IrqAllocEnv × Option Nat)) (afu : ocxl_afu)
    (h : ∀ p ∈ envs, irqEnvOk p.1 = true) :
    (irq_alloc_trace afu envs).2
      = (List.range envs.length).map (fun i => (OCXL_OK, some (afu.irqs.length + i))) ∧
    (irq_alloc_trace afu envs).1.irqs.map (fun q => q.addr)
      = afu.irqs.map (fun q => q.addr) ++ envs.map (fun p => p.1.mmap_addr.getD 0) := by
  induction envs generalizing afu with
  | nil => simp [irq_alloc_trace]
  | cons p rest ih =>
    obtain ⟨env, info⟩ := p
    have hp : irqEnvOk env = true := h (env, info) (List.mem_cons_self _ _)
    have hrest : ∀ q ∈ rest, irqEnvOk q.1 = true :=
      fun q hq => h q (List.mem_cons_of_mem _ hq)
    have halloc := ocxl_irq_alloc_ok env info afu hp
    obtain ⟨ih1, ih2⟩ := ih
      { afu with irqs := afu.irqs ++
        [{ irq_offset := env.alloc_offset.getD 0, eventfd := env.eventfd.getD 0,
           irq_number := afu.irqs.length, addr := env.mmap_addr.getD 0, info := info }] }
      hrest
    constructor
    · simp only [irq_alloc_trace, halloc, ih1, List.length_cons,
        List.range_succ_eq_map, List.map_cons, List.map_map, List.cons.injEq,
        List.length_append, List.length_nil, Nat.add_zero, true_and]
      apply List.map_congr_left
      intro i _
      simp only [Function.comp_apply]
      congr 2
      omega
    · simp only [irq_alloc_trace, halloc, ih2]
      simp [List.map_append]

/-- Claim C6: on a fresh context, `N` successful interrupt allocations return
the indices `0, 1, …, N-1` in that order (each one greater than its
predecessor, never reused), and — given that the kernel hands out pairwise
distinct non-NULL trigger-page addresses for the `N` live mappings — the
`N` IRQ handles are pairwise distinct and non-zero, and are returned by
`ocxl_irq_get_handle` for each index. -/
theorem C6_irq_indices_sequential_handles_distinct
    (envs : List (IrqAllocEnv × Option Nat)) (afu : ocxl_afu)
    (h : ∀ p ∈ envs, irqEnvOk p.1 = true) (hfresh : afu.irqs = [])
    (hnodup : (envs.map (fun p => p.1.mmap_addr.getD 0)).Nodup)
    (hnz : ∀ p ∈ envs, p.1.mmap_addr.getD 0 ≠ 0) :
    (irq_alloc_trace afu envs).2
      = (List.range envs.length).map (fun i => (OCXL_OK, some i)) ∧
    ((irq_alloc_trace afu envs).1.irqs.map (fun q => q.addr)).Nodup ∧
    (∀ a ∈ (irq_alloc_trace afu envs).1.irqs.map (fun q => q.addr), a ≠ 0) ∧
    (∀ i, i < envs.length →
      ocxl_irq_get_handle (irq_alloc_trace afu envs).1 i
        = (envs.map (fun p => p.1.mmap_addr.getD 0))[i]?) := by
  obtain ⟨h1, h2⟩ := irq_alloc_trace_ok envs afu h
  rw [hfresh] at h1 h2
  simp only [List.length_nil, Nat.zero_add, List.map_nil, List.nil_append] at h1 h2
  have hlen : (irq_alloc_trace afu envs).1.irqs.length = envs.length := by
    have := congrArg List.length h2
    simpa using this
  refine ⟨h1, by rw [h2]; exact hnodup, ?_, ?_⟩
  · intro a ha
    rw [h2] at ha
    obtain ⟨p, hp, hpa⟩ := List.mem_map.mp ha
    exact hpa ▸ hnz p hp
  · intro i hi
    have hne : ¬i > (irq_alloc_trace afu envs).1.irqs.length := by rw [hlen]; omega
    simp only [ocxl_irq_get_handle, if_neg hne]
    rw [← List.getElem?_map, h2]

/-- Witness for C6: two successful allocations with trigger pages at
0x7f001000 and 0x7f002000 yield indices 0 then 1 and those two handles. -/
theorem C6_witness :
    (irq_alloc_trace (afu_init malloc_state_example)
        [(⟨some 10, some 4096, true, some 0x7f001000, true, true⟩, none),
         (⟨some 11, some 8192, true, some 0x7f002000, true, true⟩, none)]).2
      = [(OCXL_OK, some 0), (OCXL_OK, some 1)] ∧
    ocxl_irq_get_handle
        (irq_alloc_trace (afu_init malloc_state_example)
          [(⟨some 10, some 4096, true, some 0x7f001000, true, true⟩, none),
           (⟨some 11, some 8192, true, some 0x7f002000, true, true⟩, none)]).1 0
      = some 0x7f001000 := by
  have h := C6_irq_indices_sequential_handles_distinct
    [(⟨some 10, some 4096, true, some 0x7f001000, true, true⟩, none),
     (⟨some 11, some 8192, true, some 0x7f002000, true, true⟩, none)]
    (afu_init malloc_state_example) (by decide) rfl (by decide) (by decide)
  refine ⟨?_, ?_⟩
  · rw [h.1]; rfl
  · rw [h.2.2.2 0 (by simp)]; rfl

/-- Claim C9 (code bug): the bound check in `ocxl_irq_get_handle` /
`ocxl_irq_get_fd` is `irq > irq_count` instead of `irq >= irq_count`, so at
index exactly `irq_count` the accessors do not return their sentinels but
read the unallocated slot `irqs[irq_count]` (with zero IRQs allocated this
dereferences the NULL `irqs` pointer).  For indices strictly greater than
`irq_count` the sentinels 0 / -1 are returned as documented. -/
theorem C9_irq_accessor_off_by_one :
    ocxl_irq_get_handle (afu_init malloc_state_example) 0 = none ∧
    ocxl_irq_get_fd (afu_init malloc_state_example) 0 = none ∧
    ocxl_irq_get_handle (afu_init malloc_state_example) 1 = some 0 ∧
    ocxl_irq_get_fd (afu_init malloc_state_example) 1 = some (-1) := by
  refine ⟨rfl, rfl, rfl, rfl⟩

/-! ### Event multiplexer (irq.c:395, `ocxl_afu_event_check_versioned`) -/

/-- One result of `read(afu->fd, …)` inside `read_afu_event`: EAGAIN, a
failed/short/ill-sized read, or a well-sized kernel event record with its
type tag and `OCXL_KERNEL_EVENT_FLAG_LAST` flag. -/
inductive KRead where
  | eagain
  | rfail
  | record (typ : Nat) (last : Bool)
  deriving DecidableEq, Repr

/-- The `ocxl_event_action` enumeration from libocxl_internal.h. -/
inductive ocxl_event_action where
  | success
  | failed
  | empty
  | ignored
  deriving DecidableEq, Repr

/-- The `read_afu_event` from irq.c:305 at event API version 0
(`max_supported_event = OCXL_AFU_EVENT_XSL_FAULT_ERROR = 0`): EAGAIN gives
`(NONE, last=1)`; other read failures give FAIL; a record with a type above
the supported maximum is IGNOREd (with its LAST flag); a translation-fault
record SUCCEEDs (with its LAST flag). -/
def read_afu_event : KRead → ocxl_event_action × Bool
  | .eagain => (.empty, true)
  | .rfail => (.failed, false)
  | .record typ last => if typ > 0 then (.ignored, last) else (.success, last)

/-- The `EPOLL_SOURCE_OCXL` drain loop from irq.c:432-441: keep reading
while the action is SUCCESS or IGNORE, bump `triggered` and record a write
of `events[triggered]` on each SUCCESS, stop at the LAST flag; a FAIL
aborts the whole call (-1, modelled as `none`).  Returns the new
`triggered` counter and the list of `events[]` indices written. -/
def drain_ocxl (triggered : Nat) : List KRead → Option (Nat × List Nat)
  | [] => some (triggered, [])
  | r :: rest =>
    match read_afu_event r with
    | (.failed, _) => none
    | (.empty, _) => some (triggered, [])
    | (.ignored, last) => if last then some (triggered, []) else drain_ocxl triggered rest
    | (.success, last) =>
      if last then some (triggered + 1, [triggered])
      else
        match drain_ocxl (triggered + 1) rest with
        | none => none
        | some (t, ws) => some (t, triggered :: ws)

/-- One ready descriptor as reported by `epoll_wait`: the main OCXL
descriptor (with the kernel's queued records for this wake cycle) or an
IRQ eventfd (whose 8-byte counter read may fail, in which case the loop
`continue`s without writing an event). -/
inductive EpollSource where
  | ocxl (queue : List KRead)
  | irq (read_ok : Bool)
  deriving DecidableEq, Repr

/-- The per-ready-descriptor loop of `ocxl_afu_event_check_versioned`
(irq.c:423-470).  Returns `none` for the `-1` error return, otherwise the
final `triggered` count together with the list of `events[]` indices
written. -/
def event_check_go : List EpollSource → Nat → Option (Nat × List Nat)
  | [], triggered => some (triggered, [])
  | .ocxl q :: rest, triggered =>
    match drain_ocxl triggered q with
    | none => none
    | some (t, ws) =>
      match event_check_go rest t with
      | none => none
      | some (tf, ws2) => some (tf, ws ++ ws2)
  | .irq ok :: rest, triggered =>
    if !ok then event_check_go rest triggered
    else
      match event_check_go rest (triggered + 1) with
      | none => none
      | some (tf, ws2) => some (tf, triggered :: ws2)

/-- The `ocxl_afu_event_check_versioned` from irq.c:395: grow the epoll result
buffer if needed (`malloc_ok`), `epoll_wait` (whose output `ready` holds at
most `event_count` descriptors), then process each ready descriptor. -/
def ocxl_afu_event_check_versioned (malloc_ok : Bool) (epoll_event_count : Nat)
    (event_count : Nat) (ready : List EpollSource) : Option (Nat × List Nat) :=
  if epoll_event_count < event_count ∧ malloc_ok = false then none
  else event_check_go ready 0

/-- Claim C3 (code bug): with an events array of capacity `event_count = 1`
and a single ready descriptor — the main OCXL descriptor with two
translation-fault records queued (the second flagged LAST) — the call
writes `events[0]` AND `events[1]` (one past the caller's array) and
returns 2 > 1: the `EPOLL_SOURCE_OCXL` drain loop never compares
`triggered` against `event_count`, contradicting the claim and the
function's own contract («event_count: the number of events that can fit
into the events array»). -/
theorem C3_event_check_writes_past_bound :
    ocxl_afu_event_check_versioned true 4 1
        [.ocxl [.record 0 false, .record 0 true]]
      = some (2, [0, 1]) ∧
    ([EpollSource.ocxl [.record 0 false, .record 0 true]].length ≤ 1) ∧
    (2 > 1) ∧ (1 ∈ [0, 1]) ∧ ¬(1 < 1) := by
  refine ⟨rfl, by decide, by omega, by decide, by omega⟩

/-! ### Open-by-name resolution (afu.c:707, `ocxl_afu_open_specific`) -/

/-- The candidate loop of `ocxl_afu_open_specific` (afu.c:742-753): try
`ocxl_afu_open_from_dev` on each glob match in order; `OCXL_OK` stops with
that candidate; `OCXL_NO_MORE_CONTEXTS` (kernel context exhaustion,
`ENOSPC`) continues with the next; any other error stops with that error;
falling off the list returns the last result. -/
def afu_open_loop : List ocxl_err → Nat → ocxl_err → Option Nat × ocxl_err
  | [], _, ret => (none, ret)
  | c :: rest, idx, _ =>
    if c = OCXL_OK then (some idx, OCXL_OK)
    else if c = OCXL_NO_MORE_CONTEXTS then afu_open_loop rest (idx + 1) OCXL_NO_MORE_CONTEXTS
    else (none, c)

/-- The `ocxl_afu_open_specific` over the outcome each matching candidate's
open would produce: an empty glob is `GLOB_NOMATCH` (`OCXL_NO_DEV`);
otherwise run the candidate loop (with `ret` initialized to
`OCXL_INTERNAL_ERROR` as at afu.c:711).  Returns which candidate's context
was opened (if any) and the error code. -/
def ocxl_afu_open_specific : List ocxl_err → Option Nat × ocxl_err
  | [] => (none, OCXL_NO_DEV)
  | c :: rest => afu_open_loop (c :: rest) 0 OCXL_INTERNAL_ERROR

theorem afu_open_loop_first_ok (cs : List ocxl_err) (idx : Nat) (ret : ocxl_err) (k : Nat)
    (hbefore : ∀ j, j < k → cs[j]? = some OCXL_NO_MORE_CONTEXTS)
    (hk : cs[k]? = some OCXL_OK) :
    afu_open_loop cs idx ret = (some (idx + k), OCXL_OK) := by
  induction cs generalizing idx ret k with
  | nil => simp at hk
  | cons c rest ih =>
    cases k with
    | zero =>
      simp only [List.getElem?_cons_zero] at hk
      injection hk with hk
      subst hk
      simp [afu_open_loop]
    | succ k =>
      have h0 : c = OCXL_NO_MORE_CONTEXTS := by
        have := hbefore 0 (by omega)
        simpa using this
      subst h0
      have hshift : ∀ j, j < k → rest[j]? = some OCXL_NO_MORE_CONTEXTS := by
        intro j hj
        have := hbefore (j + 1) (by omega)
        simpa using this
      have hk' : rest[k]? = some OCXL_OK := by simpa using hk
      rw [afu_open_loop]
      rw [if_neg (by intro h; cases h), if_pos rfl]
      rw [ih (idx + 1) OCXL_NO_MORE_CONTEXTS k hshift hk']
      congr 2
      omega

theorem afu_open_loop_exhausted (cs : List ocxl_err) (idx : Nat) (ret : ocxl_err)
    (h : (afu_open_loop cs idx ret).2 = OCXL_NO_MORE_CONTEXTS) :
    ∀ c ∈ cs, c = OCXL_NO_MORE_CONTEXTS := by
  induction cs generalizing idx ret with
  | nil => intro c hc; cases hc
  | cons c rest ih =>
    intro x hx
    by_cases hok : c = OCXL_OK
    · rw [afu_open_loop, if_pos hok] at h
      cases h
    · by_cases hnm : c = OCXL_NO_MORE_CONTEXTS
      · rw [afu_open_loop, if_neg hok, if_pos hnm] at h
        rcases List.mem_cons.mp hx with hx | hx
        · exact hx ▸ hnm
        · exact ih (idx + 1) OCXL_NO_MORE_CONTEXTS h x hx
      · rw [afu_open_loop, if_neg hok, if_neg hnm] at h
        exact absurd h hnm

/-- Claim C7: in open-by-name resolution, a candidate whose open is
resource-exhausted (`OCXL_NO_MORE_CONTEXTS`) is skipped and the next
candidate tried; if every candidate before position `k` was
resource-exhausted and candidate `k` opens successfully, the overall
result is candidate `k`'s context with `OCXL_OK` (in particular, with two
candidates where the first is exhausted and the second succeeds, the
second is returned); and `OCXL_NO_MORE_CONTEXTS` is the overall result
only when every matching candidate's open was resource-exhausted. -/
theorem C7_resolution_fallback (cs : List ocxl_err) :
    (∀ k, (∀ j, j < k → cs[j]? = some OCXL_NO_MORE_CONTEXTS) →
      cs[k]? = some OCXL_OK →
      ocxl_afu_open_specific cs = (some k, OCXL_OK)) ∧
    ((ocxl_afu_open_specific cs).2 = OCXL_NO_MORE_CONTEXTS →
      ∀ c ∈ cs, c = OCXL_NO_MORE_CONTEXTS) := by
  constructor
  · intro k hbefore hk
    cases cs with
    | nil => simp at hk
    | cons c rest =>
      rw [ocxl_afu_open_specific]
      rw [afu_open_loop_first_ok (c :: rest) 0 OCXL_INTERNAL_ERROR k hbefore hk]
      simp
  · intro h
    cases cs with
    | nil => intro c hc; cases hc
    | cons c rest =>
      rw [ocxl_afu_open_specific] at h
      exact afu_open_loop_exhausted (c :: rest) 0 OCXL_INTERNAL_ERROR h

/-- Witness for C7: two candidates, the first resource-exhausted and the
second opening successfully — the second candidate's context is returned. -/
theorem C7_witness :
    ocxl_afu_open_specific [OCXL_NO_MORE_CONTEXTS, OCXL_OK] = (some 1, OCXL_OK) := by
  refine (C7_resolution_fallback [OCXL_NO_MORE_CONTEXTS, OCXL_OK]).1 1 ?_ ?_
  · intro j hj
    interval_cases j
    rfl
  · rfl

end LibOCXL
